import Mathlib

/-!
Verification of the cursor `InputManager` of `pkg/manager/input/input-cursor/manager.go`.

The Go file is embedded shallowly: the manager's methods (`init`, `Init`, `Create`,
`lock`, `lockResource`) become pure Lean functions over an explicit manager / store
state; outcomes of external collaborators (the durable `statestore`, `conf.Unpack`,
the `Configure` callback, `unison.Group.Go`, and the cancellation token) are passed
in as explicit parameters.  The refcounted, lockable `resource` registry and the
persisted key format live in files of the repository that are not part of the
sources here, so those parts are modelled from the specification, each marked in
its doc comment.  Durations (`time.Duration`) are modelled as integers counting
nanoseconds.
-/

namespace CursorSpec

/-- Go `time.Duration` in nanoseconds (an `int64`; values here never approach
the overflow boundary, so a plain `Int` is adequate). -/
abbrev Duration := Int

/-- 30 minutes in nanoseconds, from `30 * time.Minute` in `manager.go` line 80. -/
def thirtyMinutes : Duration := 30 * 60 * 1000000000

/-- 5 minutes in nanoseconds, from `5 * time.Minute` in `manager.go` line 117. -/
def fiveMinutes : Duration := 5 * 60 * 1000000000

/-- Modelled from the spec: one entry of the `ResourceStore` registry (the Go
`resource` type is not among the sources; spec §3 describes it as key, exclusive
lock, reference count).  `lockedBy = some t` means task `t` holds the exclusive
lock; `none` means the lock is free.  The cursor payload and timestamps are not
needed by any claim and are omitted. -/
structure Resource where
  key : String
  refCount : Nat
  lockedBy : Option Nat
deriving Repr, DecidableEq

/-- Modelled from the spec: the in-memory `store` (spec §4.2): a store-level
reference count on the durable handle plus the key-indexed registry of
`Resource`s. -/
structure Store where
  storeRefCount : Nat
  resources : List Resource
deriving Repr, DecidableEq

/-- Look a resource up by key in the registry list. -/
def findResource (key : String) (rs : List Resource) : Option Resource :=
  rs.find? (fun r => r.key == key)

/-- Replace the entry whose key matches `r.key`, appending when absent. -/
def setResource (r : Resource) : List Resource → List Resource
  | [] => [r]
  | x :: xs => if x.key == r.key then r :: xs else x :: setResource r xs

/-- Reference count currently recorded for `key` (0 when the key is absent). -/
def refCountOf (st : Store) (key : String) : Nat :=
  match findResource key st.resources with
  | some r => r.refCount
  | none => 0

/-- Modelled from the spec: `store.Get` (spec §4.2): return the resource for
`key`, creating it on first access, and always increment its reference count. -/
def Store.get (st : Store) (key : String) : Resource × Store :=
  match findResource key st.resources with
  | some r =>
      let r1 := { r with refCount := r.refCount + 1 }
      (r1, { st with resources := setResource r1 st.resources })
  | none =>
      let r1 : Resource := { key := key, refCount := 1, lockedBy := none }
      (r1, { st with resources := setResource r1 st.resources })

/-- Modelled from the spec: `resource.Release` (spec §4.3): decrement the
reference count of the resource stored under `key`. -/
def Store.releaseResource (st : Store) (key : String) : Store :=
  match findResource key st.resources with
  | some r => { st with resources := setResource { r with refCount := r.refCount - 1 } st.resources }
  | none => st

/-- Result of a lock attempt.  `wouldBlock` stands for the suspended state of
`unison.Mutex.LockContext` on a contended key with a live cancellation token:
the Go call has not returned yet at that point. -/
inductive LockResult where
  | ok
  | cancelledErr
  | wouldBlock
deriving Repr, DecidableEq

/-- The function `lockResource` of `manager.go` lines 182-192: a non-blocking
`TryLock` first; on contention a blocking acquire bounded by the cancellation
token.  The `unison.Mutex` primitive is an external collaborator, modelled from
spec §4.3: try-acquire succeeds exactly when the lock is free, and the blocking
acquire returns a cancellation failure when the token has fired. -/
def lockResource (r : Resource) (tid : Nat) (cancelled : Bool) : LockResult × Resource :=
  match r.lockedBy with
  | none => (LockResult.ok, { r with lockedBy := some tid })
  | some _ => if cancelled then (LockResult.cancelledErr, r) else (LockResult.wouldBlock, r)

/-- The method `(*InputManager).lock` of `manager.go` lines 172-180: fetch (and
thereby retain) the resource from the store, attempt the lock, and on failure
release the resource before propagating the error. -/
def managerLock (st : Store) (tid : Nat) (cancelled : Bool) (key : String) :
    LockResult × Store :=
  let (r, st1) := st.get key
  match lockResource r tid cancelled with
  | (LockResult.ok, r1) => (LockResult.ok, { st1 with resources := setResource r1 st1.resources })
  | (LockResult.cancelledErr, _) => (LockResult.cancelledErr, st1.releaseResource key)
  | (LockResult.wouldBlock, _) => (LockResult.wouldBlock, st1)

/-- The `InputManager` struct of `manager.go` lines 36-57.  The `sync.Once`
guard is made explicit as the pair `initDone` / `initErr`; `setupCount` is a
ghost counter of how many times the once-body actually executed.  `Logger`,
`StateStore` and `Configure` are external collaborators; their observable
outcomes enter the model as parameters of the methods below. -/
structure InputManager where
  typeName : String
  DefaultCleanTimeout : Duration
  initDone : Bool
  initErr : Option String
  store : Option Store
  setupCount : Nat
deriving Repr, DecidableEq

/-- The method `(*InputManager).init` of `manager.go` lines 77-94: under the
once-guard, default `DefaultCleanTimeout` to 30 minutes when non-positive, then
open the store (`openStore`, whose outcome is the parameter `openResult`),
caching the error.  Every call returns the cached `initErr`. -/
def InputManager.init (m : InputManager) (openResult : Except String Store) :
    InputManager × Option String :=
  if m.initDone then (m, m.initErr)
  else
    let d := if m.DefaultCleanTimeout ≤ 0 then thirtyMinutes else m.DefaultCleanTimeout
    match openResult with
    | Except.error e =>
        ({ m with initDone := true, DefaultCleanTimeout := d, initErr := some e,
                  setupCount := m.setupCount + 1 }, some e)
    | Except.ok s =>
        ({ m with initDone := true, DefaultCleanTimeout := d, initErr := none,
                  store := some s, setupCount := m.setupCount + 1 }, none)

/-- Iterate `init` over a list of prospective `openStore` outcomes, collecting
the result of each call: the shape of N successive (serialised, as `sync.Once`
serialises them) `init` invocations. -/
def initTrace (m : InputManager) : List (Except String Store) → InputManager × List (Option String)
  | [] => (m, [])
  | o :: os =>
      let (m1, r) := m.init o
      let (m2, rs) := initTrace m1 os
      (m2, r :: rs)

/-- The sentinel error values of `manager.go` lines 66-69 and the remaining
failure exits of `Create`. -/
inductive CreateError where
  | initFailed (e : String)
  | unpackFailed (e : String)
  | configureFailed (e : String)
  | noSourceConfigured
  | noInputRunner
deriving Repr, DecidableEq

/-- The message carried by each `CreateError`; the two sentinel texts are the
exact strings of `manager.go` lines 67-68. -/
def CreateError.message : CreateError → String
  | CreateError.initFailed e => e
  | CreateError.unpackFailed e => e
  | CreateError.configureFailed e => e
  | CreateError.noSourceConfigured => "no source has been configured"
  | CreateError.noInputRunner => "no input runner available"

/-- An input runner (the `Input` interface).  Only identity and nil-ness matter
to the claims, so an opaque tag suffices; Go's nil runner is `Option.none`. -/
structure Input where
  tag : Nat
deriving Repr, DecidableEq

/-- The `managedInput` value assembled by `Create` (`manager.go` lines
161-167).  A `Source` is represented by its `Name()` string, the only method of
the `Source` interface. -/
structure managedInput where
  ID : String
  sources : List String
  input : Input
  cleanTimeout : Duration
deriving Repr, DecidableEq

/-- The two recognised per-input options of `manager.go` lines 142-145.
`conf.Unpack` leaves a field at its initialiser when the option is absent, so
each field is an `Option` here and `Create` applies the defaults. -/
structure Config where
  id : Option String
  cleanTimeout : Option Duration
deriving Repr, DecidableEq

/-- Observable outcomes of the external calls `Create` makes: `conf.Unpack`
(`unpackErr`) and the user-supplied `Configure` callback (source names and an
optional runner, or an error). -/
structure CreateEnv where
  openResult : Except String Store
  unpackErr : Option String
  configureResult : Except String (List String × Option Input)

/-- The method `(*InputManager).Create` of `manager.go` lines 137-168: run
`init`; unpack `{id, clean_timeout}` with defaults `""` and
`DefaultCleanTimeout`; call `Configure`; fail on an empty source list, then on
a nil runner; otherwise assemble the `managedInput`. -/
def InputManager.Create (m : InputManager) (env : CreateEnv) (cfg : Config) :
    InputManager × Except CreateError managedInput :=
  let (m1, ierr) := m.init env.openResult
  match ierr with
  | some e => (m1, Except.error (CreateError.initFailed e))
  | none =>
    match env.unpackErr with
    | some e => (m1, Except.error (CreateError.unpackFailed e))
    | none =>
      match env.configureResult with
      | Except.error e => (m1, Except.error (CreateError.configureFailed e))
      | Except.ok (sources, inp) =>
        if sources.isEmpty then (m1, Except.error CreateError.noSourceConfigured)
        else
          match inp with
          | none => (m1, Except.error CreateError.noInputRunner)
          | some i =>
              (m1, Except.ok { ID := (cfg.id).getD "",
                               sources := sources,
                               input := i,
                               cleanTimeout := (cfg.cleanTimeout).getD m1.DefaultCleanTimeout })

/-- The `input.Mode` enumeration (declared outside these sources); `Init` only
distinguishes `run` from everything else. -/
inductive Mode where
  | run
  | test
  | other
deriving Repr, DecidableEq

/-- Observable outcomes of the external calls `Init` makes: `openStore` (via
`init`), `StateStore.CleanupInterval()`, and whether `unison.Group.Go` failed
to launch the background task. -/
structure InitEnv where
  openResult : Except String Store
  cleanupInterval : Duration
  goErr : Option String

/-- Error wrapping as performed by `sderr.Wrap` in `manager.go` line 125:
attach a context message to a cause. -/
def sderrWrap (cause msg : String) : String := msg ++ ": " ++ cause

/-- The method `(*InputManager).Init` of `manager.go` lines 98-129.  Returns
the new manager state, the returned error, and — when the Cleaner background
task was launched — the sweep interval it will use (`manager.go` lines
115-118).  On a launch failure the code runs `store.Release()` and then
`cim.shutdown()` (a second release), so the store-handle refcount drops by two
after the `Retain` of line 111. -/
def InputManager.Init (m : InputManager) (env : InitEnv) (mode : Mode) :
    InputManager × Option String × Option Duration :=
  if mode ≠ Mode.run then (m, none, none)
  else
    let (m1, ierr) := m.init env.openResult
    match ierr with
    | some e => (m1, some e, none)
    | none =>
      match m1.store with
      | none => (m1, some "store not initialized", none)
      | some s =>
        let s1 := { s with storeRefCount := s.storeRefCount + 1 }
        match env.goErr with
        | some e =>
            let s2 := { s1 with storeRefCount := s1.storeRefCount - 1 - 1 }
            ({ m1 with store := some s2 },
             some (sderrWrap e "Can not start registry cleanup process"), none)
        | none =>
            let interval := if env.cleanupInterval ≤ 0 then fiveMinutes else env.cleanupInterval
            ({ m1 with store := some s1 }, none, some interval)

/-- Modelled from the spec: the persisted key for one source (the derivation
lives with `managedInput`, outside these sources).  Spec §6 and the doc comment
of `manager.go` lines 33-35 agree on the format
`<Type>-[<ID>]-<Source Name>`, the id segment present only for a non-empty id. -/
def cursorKey (namespaceName id sourceName : String) : String :=
  if id = "" then namespaceName ++ "-" ++ sourceName
  else namespaceName ++ "-[" ++ id ++ "]-" ++ sourceName

/-- Phase of one concurrent task with respect to the per-key resource locks:
not interested in any key, waiting inside `lockResource` for a key, or holding
a key's lock. -/
inductive Phase where
  | idle
  | waiting (key : String)
  | holding (key : String)
deriving Repr, DecidableEq

/-- Global lock state: the phase of every task (tasks of all `managedInput`s
together, identified by arbitrary numbers). -/
def TaskMap := Nat → Phase

/-- Update one task's phase. -/
def setTask (s : TaskMap) (t : Nat) (p : Phase) : TaskMap :=
  fun u => if u = t then p else s u

/-- Modelled from the spec: the interleaving semantics of concurrent
`(*InputManager).lock` / `releaseResource` calls.  The `unison.Mutex` inside
`resource` is external; spec §4.3 fixes its contract: an acquire (`TryLock` or
the grant completing `LockContext`) succeeds only when no task holds the key,
a waiter may give up on cancellation, and a holder may unlock.  No rule orders
competing waiters, matching the absence of any fairness guarantee. -/
inductive LockStep : TaskMap → TaskMap → Prop where
  | request (s : TaskMap) (t : Nat) (k : String) :
      s t = Phase.idle → LockStep s (setTask s t (Phase.waiting k))
  | acquire (s : TaskMap) (t : Nat) (k : String) :
      s t = Phase.waiting k → (∀ u, s u ≠ Phase.holding k) →
      LockStep s (setTask s t (Phase.holding k))
  | cancel (s : TaskMap) (t : Nat) (k : String) :
      s t = Phase.waiting k → LockStep s (setTask s t Phase.idle)
  | unlock (s : TaskMap) (t : Nat) (k : String) :
      s t = Phase.holding k → LockStep s (setTask s t Phase.idle)

/-- Initially every task is idle: no lock is held. -/
def initTasks : TaskMap := fun _ => Phase.idle

/-- States reachable from the initial state by interleaved lock steps. -/
def ReachableLockState : TaskMap → Prop := Relation.ReflTransGen LockStep initTasks

/-- Mutual exclusion: for every key, at most one task holds that key's lock. -/
def MutualExclusion (s : TaskMap) : Prop :=
  ∀ k t u, s t = Phase.holding k → s u = Phase.holding k → t = u

/-- A demonstration state in which task 1 requested the lock of key `"k"`
before task 2 did, and both are still waiting. -/
def bothWaiting : TaskMap :=
  setTask (setTask initTasks 1 (Phase.waiting "k")) 2 (Phase.waiting "k")

/-- One lock step preserves mutual exclusion. -/
theorem lockStep_mutex {s s1 : TaskMap} (h : LockStep s s1)
    (hm : MutualExclusion s) : MutualExclusion s1 := by
  cases h with
  | request t k ht =>
      intro k1 a b ha hb
      by_cases hat : a = t <;> by_cases hbt : b = t <;>
        simp only [setTask, hat, hbt, if_pos, if_neg, ite_true, ite_false,
          reduceCtorEq] at ha hb <;> first
          | exact hat.trans hbt.symm
          | exact hm k1 a b ha hb
  | acquire t k ht hfree =>
      intro k1 a b ha hb
      by_cases hat : a = t <;> by_cases hbt : b = t <;>
        simp only [setTask, hat, hbt, if_pos, if_neg, ite_true, ite_false] at ha hb
      · exact hat.trans hbt.symm
      · exact absurd hb (by rw [← Phase.holding.inj ha]; exact hfree b)
      · exact absurd ha (by rw [← Phase.holding.inj hb]; exact hfree a)
      · exact hm k1 a b ha hb
  | cancel t k ht =>
      intro k1 a b ha hb
      by_cases hat : a = t <;> by_cases hbt : b = t <;>
        simp only [setTask, hat, hbt, if_pos, if_neg, ite_true, ite_false,
          reduceCtorEq] at ha hb <;> first
          | exact hat.trans hbt.symm
          | exact hm k1 a b ha hb
  | unlock t k ht =>
      intro k1 a b ha hb
      by_cases hat : a = t <;> by_cases hbt : b = t <;>
        simp only [setTask, hat, hbt, if_pos, if_neg, ite_true, ite_false,
          reduceCtorEq] at ha hb <;> first
          | exact hat.trans hbt.symm
          | exact hm k1 a b ha hb

/-- Every reachable lock state satisfies mutual exclusion. -/
theorem reachable_mutex : ∀ s, ReachableLockState s → MutualExclusion s := by
  intro s h
  induction h with
  | refl => intro k t u ht _; cases ht
  | tail _ hstep ih => exact lockStep_mutex hstep ih

/-- The state with tasks 1 and 2 waiting on `"k"` is reachable (task 1
requesting first). -/
theorem bothWaiting_reachable : ReachableLockState bothWaiting := by
  have h1 : LockStep initTasks (setTask initTasks 1 (Phase.waiting "k")) :=
    LockStep.request initTasks 1 "k" rfl
  have h2 : LockStep (setTask initTasks 1 (Phase.waiting "k")) bothWaiting :=
    LockStep.request (setTask initTasks 1 (Phase.waiting "k")) 2 "k" rfl
  exact Relation.ReflTransGen.tail (Relation.ReflTransGen.single h1) h2

/-- No task holds `"k"` in the demonstration state. -/
theorem bothWaiting_free : ∀ u, bothWaiting u ≠ Phase.holding "k" := by
  intro u
  by_cases h2 : u = 2 <;> by_cases h1 : u = 1 <;>
    simp [bothWaiting, setTask, initTasks, h1, h2]

/-- A resource found under `key` carries that key. -/
theorem findResource_key {key : String} {rs : List Resource} {r : Resource}
    (h : findResource key rs = some r) : r.key = key := by
  have h1 := List.find?_some h
  simpa using h1

/-- Looking up the key just written finds the written resource. -/
theorem findResource_setResource_self (r : Resource) (rs : List Resource) :
    findResource r.key (setResource r rs) = some r := by
  induction rs with
  | nil => simp [findResource, setResource, List.find?]
  | cons x xs ih =>
      by_cases hx : x.key = r.key
      · simp [findResource, setResource, hx, List.find?]
      · have hb : (x.key == r.key) = false := beq_eq_false_iff_ne.mpr hx
        simp only [setResource, hb, Bool.false_eq_true, if_false]
        simpa [findResource, List.find?, hb] using ih

/-- Writing the same key twice keeps only the second write. -/
theorem setResource_setResource {r1 r2 : Resource} (h : r2.key = r1.key) (rs : List Resource) :
    setResource r2 (setResource r1 rs) = setResource r2 rs := by
  induction rs with
  | nil => simp [setResource, h]
  | cons x xs ih =>
      by_cases hx : x.key = r1.key
      · simp [setResource, hx, h]
      · have hx2 : ¬x.key = r2.key := by rw [h]; exact hx
        simp [setResource, hx, hx2, ih]

/-- Writing back the exact resource the lookup returned changes nothing. -/
theorem setResource_find_eq {key : String} {r : Resource} {rs : List Resource}
    (hf : findResource key rs = some r) : setResource r rs = rs := by
  induction rs with
  | nil => simp [findResource, List.find?] at hf
  | cons x xs ih =>
      by_cases hx : x.key = key
      · have hxr : x = r := by
          simpa [findResource, List.find?, hx] using hf
        simp [setResource, hxr]
      · have hb : (x.key == key) = false := beq_eq_false_iff_ne.mpr hx
        have hf1 : findResource key xs = some r := by
          simpa [findResource, List.find?, hb] using hf
        have hrk : r.key = key := findResource_key hf1
        have hx2 : ¬x.key = r.key := by rw [hrk]; exact hx
        simp [setResource, hx2, ih hf1]

/-- C1: for every key, across all concurrent lock attempts by any number of
tasks (tasks of independently-configured inputs contending for the same source
key included), at most one task holds that key's Resource lock at any instant —
every reachable interleaving state satisfies mutual exclusion — and no
fairness/FIFO ordering among waiters is guaranteed: from the reachable state
`bothWaiting`, in which task 1 began waiting on key `"k"` before task 2 did,
the semantics admits the step granting the lock to task 2 just as well as the
step granting it to task 1. -/
theorem lock_mutual_exclusion_and_no_fifo :
    (∀ s, ReachableLockState s → MutualExclusion s) ∧
    ReachableLockState bothWaiting ∧
    LockStep bothWaiting (setTask bothWaiting 2 (Phase.holding "k")) ∧
    LockStep bothWaiting (setTask bothWaiting 1 (Phase.holding "k")) := by
  refine ⟨reachable_mutex, bothWaiting_reachable, ?_, ?_⟩
  · exact LockStep.acquire bothWaiting 2 "k" rfl bothWaiting_free
  · exact LockStep.acquire bothWaiting 1 "k" rfl bothWaiting_free

/-- Witness: the mutual-exclusion part instantiated at the concrete initial
state, whose reachability is discharged by reflexivity. -/
theorem lock_mutual_exclusion_and_no_fifo_witness : MutualExclusion initTasks :=
  lock_mutual_exclusion_and_no_fifo.1 initTasks Relation.ReflTransGen.refl

/-- C2: when the cancellation token has fired before the lock could be
acquired (the key being held by some task `u`), `lock` returns the
cancellation error and the store is exactly as it was before the call: no lock
is newly held and the resource's reference count equals its prior value. -/
theorem lock_cancelled_no_leak (st : Store) (tid : Nat) (key : String) (r : Resource) (u : Nat)
    (hfind : findResource key st.resources = some r) (hheld : r.lockedBy = some u) :
    managerLock st tid true key = (LockResult.cancelledErr, st) ∧
    refCountOf (managerLock st tid true key).2 key = refCountOf st key := by
  have hrk : r.key = key := findResource_key hfind
  have hget : st.get key =
      (({ key := key, refCount := r.refCount + 1, lockedBy := some u } : Resource),
       { st with resources := (setResource
          { key := key, refCount := r.refCount + 1, lockedBy := some u } st.resources) }) := by
    simp [Store.get, hfind, hrk, hheld]
  have hfind1 : findResource key
      (setResource { key := key, refCount := r.refCount + 1, lockedBy := some u } st.resources) =
      some { key := key, refCount := r.refCount + 1, lockedBy := some u } :=
    findResource_setResource_self
      { key := key, refCount := r.refCount + 1, lockedBy := some u } st.resources
  have hrel : Store.releaseResource
      { st with resources := (setResource
          { key := key, refCount := r.refCount + 1, lockedBy := some u } st.resources) }
      key = st := by
    simp only [Store.releaseResource, hfind1, Nat.add_sub_cancel]
    have h2 : ({ key := key, refCount := r.refCount, lockedBy := some u } : Resource) = r := by
      rw [← hrk, ← hheld]
    rw [h2, setResource_setResource hrk, setResource_find_eq hfind]
  have hmain : managerLock st tid true key = (LockResult.cancelledErr, st) := by
    simp only [managerLock, hget, lockResource, if_true]
    simpa using hrel
  exact ⟨hmain, by rw [hmain]⟩

/-- C10: for an uncontended key (absent, or present with a free lock), `lock`
succeeds through the non-blocking try-acquire without consulting the
cancellation token: for every token state — an already-cancelled token
included — it returns the locked, retained resource, never a cancellation
error. -/
theorem lock_free_ignores_cancellation (st : Store) (tid : Nat) (key : String) (cancelled : Bool)
    (hfree : ∀ r, findResource key st.resources = some r → r.lockedBy = none) :
    (managerLock st tid cancelled key).1 = LockResult.ok ∧
    findResource key (managerLock st tid cancelled key).2.resources =
      some { key := key, refCount := refCountOf st key + 1, lockedBy := some tid } := by
  cases hf : findResource key st.resources with
  | none =>
      have hget : st.get key =
          (({ key := key, refCount := 1, lockedBy := none } : Resource),
           { st with resources :=
              setResource { key := key, refCount := 1, lockedBy := none } st.resources }) := by
        simp [Store.get, hf]
      have hcount : refCountOf st key = 0 := by simp [refCountOf, hf]
      constructor
      · simp [managerLock, hget, lockResource]
      · simp only [managerLock, hget, lockResource]
        rw [hcount]
        exact findResource_setResource_self
          { key := key, refCount := 1, lockedBy := some tid } _
  | some r =>
      have hrk : r.key = key := findResource_key hf
      have hlb : r.lockedBy = none := hfree r hf
      have hget : st.get key =
          (({ key := key, refCount := r.refCount + 1, lockedBy := none } : Resource),
           { st with resources := (setResource
              { key := key, refCount := r.refCount + 1, lockedBy := none } st.resources) }) := by
        simp [Store.get, hf, hrk, hlb]
      have hcount : refCountOf st key = r.refCount := by simp [refCountOf, hf]
      constructor
      · simp [managerLock, hget, lockResource]
      · simp only [managerLock, hget, lockResource]
        rw [hcount]
        exact findResource_setResource_self
          { key := key, refCount := r.refCount + 1, lockedBy := some tid } _

/-- Concrete store for witnesses: key `"k"` is held by task 7 with two
outstanding references. -/
def demoStore : Store :=
  { storeRefCount := 1,
    resources := [{ key := "k", refCount := 2, lockedBy := some 7 }] }

/-- Concrete store for witnesses: key `"k"` present, referenced, lock free. -/
def demoFreeStore : Store :=
  { storeRefCount := 1,
    resources := [{ key := "k", refCount := 2, lockedBy := none }] }

/-- Witness: in `demoStore` (key `"k"` held by task 7), a lock attempt by task
3 with an already-fired token returns the cancellation error and leaves the
store identical. -/
theorem lock_cancelled_no_leak_witness :
    managerLock demoStore 3 true "k" = (LockResult.cancelledErr, demoStore) ∧
    refCountOf (managerLock demoStore 3 true "k").2 "k" = refCountOf demoStore "k" :=
  lock_cancelled_no_leak demoStore 3 "k"
    { key := "k", refCount := 2, lockedBy := some 7 } 7 rfl rfl

/-- Witness: in `demoFreeStore` (key `"k"` free), a lock attempt with an
already-fired token still succeeds and retains the resource. -/
theorem lock_free_ignores_cancellation_witness :
    (managerLock demoFreeStore 3 true "k").1 = LockResult.ok ∧
    findResource "k" (managerLock demoFreeStore 3 true "k").2.resources =
      some { key := "k", refCount := refCountOf demoFreeStore "k" + 1, lockedBy := some 3 } :=
  lock_free_ignores_cancellation demoFreeStore 3 "k" true
    (fun r h => by
      have h1 : some ({ key := "k", refCount := 2, lockedBy := none } : Resource) = some r := h
      cases Option.some.inj h1
      rfl)

/-- Init of a manager whose once-guard already ran returns it unchanged with
the cached outcome (`sync.Once` body skipped). -/
theorem init_done_stable (m : InputManager) (o : Except String Store)
    (h : m.initDone = true) : m.init o = (m, m.initErr) := by
  simp [InputManager.init, h]

/-- After any `init` call the once-guard is set. -/
theorem init_sets_done (m : InputManager) (o : Except String Store) :
    (m.init o).1.initDone = true := by
  by_cases h : m.initDone <;> cases o <;> simp [InputManager.init, h]

/-- The value `init` returns is the cached `initErr` of the state it leaves. -/
theorem init_snd_eq_initErr (m : InputManager) (o : Except String Store) :
    (m.init o).2 = (m.init o).1.initErr := by
  by_cases h : m.initDone <;> cases o <;> simp [InputManager.init, h]

/-- C3: starting from an uninitialised manager, the first `init` call executes
the setup exactly once (the ghost counter rises by one); every later sequence
of `init` calls, whatever `openStore` would then return, leaves the state
untouched and reports the identical cached first outcome; and a cached error
is what `Create` and run-mode `Init` then observe, with no re-attempt of the
setup (the state, counter included, stays fixed). -/
theorem init_at_most_once (m : InputManager) (o : Except String Store)
    (hnew : m.initDone = false) :
    (m.init o).1.setupCount = m.setupCount + 1 ∧
    (∀ os, initTrace (m.init o).1 os =
        ((m.init o).1, os.map fun _ => (m.init o).2)) ∧
    (∀ e env cfg, (m.init o).2 = some e →
        (m.init o).1.Create env cfg =
          ((m.init o).1, Except.error (CreateError.initFailed e))) ∧
    (∀ e env, (m.init o).2 = some e →
        (m.init o).1.Init env Mode.run = ((m.init o).1, some e, none)) := by
  have hdone : (m.init o).1.initDone = true := init_sets_done m o
  refine ⟨?_, ?_, ?_, ?_⟩
  · cases o <;> simp [InputManager.init, hnew]
  · intro os
    induction os with
    | nil => simp [initTrace]
    | cons o2 os ih =>
        simp only [initTrace, init_done_stable _ o2 hdone, ih,
          init_snd_eq_initErr m o, List.map_cons]
  · intro e env cfg he
    have herr : (m.init o).1.initErr = some e := by
      rw [← init_snd_eq_initErr m o]; exact he
    simp [InputManager.Create, init_done_stable _ env.openResult hdone, herr]
  · intro e env he
    have herr : (m.init o).1.initErr = some e := by
      rw [← init_snd_eq_initErr m o]; exact he
    simp [InputManager.Init, init_done_stable _ env.openResult hdone, herr]

/-- A fresh, uninitialised manager for witnesses. -/
def demoManager : InputManager :=
  { typeName := "filestream", DefaultCleanTimeout := 0, initDone := false,
    initErr := none, store := none, setupCount := 0 }

/-- Witness: a failed first `init` of the fresh manager bumps the setup
counter to one, and one subsequent call (even one whose `openStore` would
succeed) returns the same cached error without touching the state. -/
theorem init_at_most_once_witness :
    (demoManager.init (Except.error "boom")).1.setupCount = demoManager.setupCount + 1 ∧
    initTrace (demoManager.init (Except.error "boom")).1 [Except.ok demoStore] =
      ((demoManager.init (Except.error "boom")).1,
       [(demoManager.init (Except.error "boom")).2]) := by
  have h := init_at_most_once demoManager (Except.error "boom") rfl
  exact ⟨h.1, by simpa using h.2.1 [Except.ok demoStore]⟩

/-- C4: on an initialised manager, whenever the `Configure` callback returns
an empty source list `Create` fails with the `errNoSourceConfigured` sentinel,
and whenever it returns sources but a nil runner `Create` fails with the
`errNoInputRunner` sentinel (the source-list check runs first, as in the
code); in both failure cases the manager — its store included — is returned
unchanged, so no `managedInput` is produced and no resource is created; the
sentinel messages are the exact strings of the source. -/
theorem create_validation (m : InputManager) (env : CreateEnv) (cfg : Config)
    (sources : List String) (inp : Option Input)
    (hdone : m.initDone = true) (herr : m.initErr = none)
    (hunpack : env.unpackErr = none)
    (hconf : env.configureResult = Except.ok (sources, inp)) :
    (sources = [] →
        m.Create env cfg = (m, Except.error CreateError.noSourceConfigured)) ∧
    (sources ≠ [] → inp = none →
        m.Create env cfg = (m, Except.error CreateError.noInputRunner)) ∧
    CreateError.noSourceConfigured.message = "no source has been configured" ∧
    CreateError.noInputRunner.message = "no input runner available" := by
  have hinit : m.init env.openResult = (m, none) := by
    rw [init_done_stable m env.openResult hdone, herr]
  refine ⟨?_, ?_, rfl, rfl⟩
  · intro hs
    subst hs
    simp [InputManager.Create, hinit, hunpack, hconf]
  · intro hs hn
    subst hn
    have hne : sources.isEmpty = false := by
      cases sources with
      | nil => exact absurd rfl hs
      | cons a as => rfl
    simp [InputManager.Create, hinit, hunpack, hconf, hne]

/-- An already-initialised manager for witnesses (its once-guard ran, the 30
minute default applied, the store open). -/
def demoManagerInit : InputManager :=
  { typeName := "filestream", DefaultCleanTimeout := thirtyMinutes,
    initDone := true, initErr := none, store := some demoStore, setupCount := 1 }

/-- Environment whose `Configure` yields no sources. -/
def demoEnvEmpty : CreateEnv :=
  { openResult := Except.ok demoStore, unpackErr := none,
    configureResult := Except.ok ([], some { tag := 1 }) }

/-- Environment whose `Configure` yields one source but a nil runner. -/
def demoEnvNilRunner : CreateEnv :=
  { openResult := Except.ok demoStore, unpackErr := none,
    configureResult := Except.ok (["/var/log/a.log"], none) }

/-- Witness: on the initialised demo manager, an empty source list yields the
no-source error and a nil runner yields the no-runner error, the manager both
times unchanged. -/
theorem create_validation_witness :
    demoManagerInit.Create demoEnvEmpty { id := none, cleanTimeout := none } =
      (demoManagerInit, Except.error CreateError.noSourceConfigured) ∧
    demoManagerInit.Create demoEnvNilRunner { id := none, cleanTimeout := none } =
      (demoManagerInit, Except.error CreateError.noInputRunner) :=
  ⟨(create_validation demoManagerInit demoEnvEmpty
      { id := none, cleanTimeout := none } [] (some { tag := 1 })
      rfl rfl rfl rfl).1 rfl,
   (create_validation demoManagerInit demoEnvNilRunner
      { id := none, cleanTimeout := none } ["/var/log/a.log"] none
      rfl rfl rfl rfl).2.1 (by simp) rfl⟩

/-- C5: the persisted key is `<namespace>-[<id>]-<sourceName>` for a non-empty
id and `<namespace>-<sourceName>` for the empty id, and on namespace
`"filestream"` with source `"/var/log/a.log"` the two spec examples come out
exactly. -/
theorem cursorKey_format :
    (∀ ns id name, id ≠ "" →
        cursorKey ns id name = ns ++ "-[" ++ id ++ "]-" ++ name) ∧
    (∀ ns name, cursorKey ns "" name = ns ++ "-" ++ name) ∧
    cursorKey "filestream" "" "/var/log/a.log" = "filestream-/var/log/a.log" ∧
    cursorKey "filestream" "custom" "/var/log/a.log" =
      "filestream-[custom]-/var/log/a.log" := by
  refine ⟨?_, ?_, rfl, rfl⟩
  · intro ns id name h
    simp [cursorKey, h]
  · intro ns name
    simp [cursorKey]

/-- Witness: the non-empty-id branch of the key format instantiated at the
spec's example. -/
theorem cursorKey_format_witness :
    cursorKey "filestream" "custom" "/var/log/a.log" =
      "filestream" ++ "-[" ++ "custom" ++ "]-" ++ "/var/log/a.log" :=
  cursorKey_format.1 "filestream" "custom" "/var/log/a.log" (by decide)

/-- C6: in run mode on an initialised manager, when launching the Cleaner
background task fails, `Init` returns the launch error wrapped with the
context message, launches no cleaner, and the store-handle reference count
ends one below its prior value — the Retain taken for the Cleaner is undone
(line 123) and the manager's own reference is dropped by `shutdown` (line
124), so no store reference has leaked: the final count does not exceed the
prior one. -/
theorem init_run_launch_failure (m : InputManager) (env : InitEnv) (s : Store)
    (e : String)
    (hdone : m.initDone = true) (herr : m.initErr = none)
    (hstore : m.store = some s) (hgo : env.goErr = some e) :
    m.Init env Mode.run =
      ({ m with store := some { s with storeRefCount := s.storeRefCount + 1 - 1 - 1 } },
       some (sderrWrap e "Can not start registry cleanup process"), none) ∧
    s.storeRefCount + 1 - 1 - 1 ≤ s.storeRefCount := by
  have hinit : m.init env.openResult = (m, none) := by
    rw [init_done_stable m env.openResult hdone, herr]
  constructor
  · simp [InputManager.Init, hinit, hstore, hgo]
  · omega

/-- Witness: the launch failure handled concretely on the demo manager (whose
store handle holds one reference): the wrapped error comes back, no cleaner
interval is produced, and the handle count drops from 1 to 0. -/
theorem init_run_launch_failure_witness :
    demoManagerInit.Init
        { openResult := Except.ok demoStore, cleanupInterval := 0, goErr := some "boom" }
        Mode.run =
      ({ demoManagerInit with
          store := some { demoStore with
            storeRefCount := demoStore.storeRefCount + 1 - 1 - 1 } },
       some (sderrWrap "boom" "Can not start registry cleanup process"), none) ∧
    demoStore.storeRefCount + 1 - 1 - 1 ≤ demoStore.storeRefCount :=
  init_run_launch_failure demoManagerInit
    { openResult := Except.ok demoStore, cleanupInterval := 0, goErr := some "boom" }
    demoStore "boom" rfl rfl rfl rfl

/-- C7: the effective clean timeout of a successfully created input is the
configured `clean_timeout` when one is present, else the manager's
`DefaultCleanTimeout` as it stands after `init`; and `init` on a fresh manager
sets `DefaultCleanTimeout` to 30 minutes exactly when it was non-positive,
keeping it otherwise. -/
theorem create_clean_timeout (m : InputManager) (env : CreateEnv) (cfg : Config)
    (o : Except String Store) :
    (∀ m2 mi, m.Create env cfg = (m2, Except.ok mi) →
        mi.cleanTimeout = (cfg.cleanTimeout).getD m2.DefaultCleanTimeout) ∧
    (m.initDone = false →
        (m.init o).1.DefaultCleanTimeout =
          if m.DefaultCleanTimeout ≤ 0 then thirtyMinutes
          else m.DefaultCleanTimeout) := by
  constructor
  · intro m2 mi h
    unfold InputManager.Create at h
    cases hi : m.init env.openResult with
    | mk m1 ierr =>
      rw [hi] at h
      cases ierr with
      | some e => simp at h
      | none =>
        cases hu : env.unpackErr with
        | some e => rw [hu] at h; simp at h
        | none =>
          rw [hu] at h
          cases hc : env.configureResult with
          | error e => rw [hc] at h; simp at h
          | ok p =>
            rw [hc] at h
            obtain ⟨sources, inp⟩ := p
            by_cases hs : sources.isEmpty
            · simp [hs] at h
            · have hsf : sources.isEmpty = false := Bool.eq_false_iff.mpr hs
              cases inp with
              | none => simp [hsf] at h
              | some i =>
                  simp only [hsf, Bool.false_eq_true, if_false, Prod.mk.injEq,
                    Except.ok.injEq] at h
                  obtain ⟨h1, h2⟩ := h
                  rw [← h2, ← h1]
  · intro hnew
    cases o <;> simp [InputManager.init, hnew]

/-- Environment for a successful `Create` on the demo manager. -/
def demoEnvOk : CreateEnv :=
  { openResult := Except.ok demoStore, unpackErr := none,
    configureResult := Except.ok (["/var/log/a.log"], some { tag := 1 }) }

/-- Witness: with no `clean_timeout` configured, the concrete created input
carries the initialised manager's 30-minute default; and the fresh demo
manager (default 0) gets 30 minutes assigned by `init`. -/
theorem create_clean_timeout_witness :
    ({ ID := "", sources := ["/var/log/a.log"], input := { tag := 1 },
       cleanTimeout := thirtyMinutes } : managedInput).cleanTimeout =
      (none : Option Duration).getD demoManagerInit.DefaultCleanTimeout ∧
    (demoManager.init (Except.ok demoStore)).1.DefaultCleanTimeout =
      (if demoManager.DefaultCleanTimeout ≤ 0 then thirtyMinutes
       else demoManager.DefaultCleanTimeout) :=
  ⟨(create_clean_timeout demoManagerInit demoEnvOk
      { id := none, cleanTimeout := none } (Except.ok demoStore)).1
      demoManagerInit
      { ID := "", sources := ["/var/log/a.log"], input := { tag := 1 },
        cleanTimeout := thirtyMinutes } rfl,
   (create_clean_timeout demoManager demoEnvOk
      { id := none, cleanTimeout := none } (Except.ok demoStore)).2 rfl⟩

/-- C8: in run mode, when the Cleaner launches, the sweep interval it is given
is the store's reported `CleanupInterval`, replaced by exactly 5 minutes
whenever that report is non-positive. -/
theorem cleaner_interval (m : InputManager) (env : InitEnv) (s : Store)
    (hdone : m.initDone = true) (herr : m.initErr = none)
    (hstore : m.store = some s) (hgo : env.goErr = none) :
    (m.Init env Mode.run).2.2 =
      some (if env.cleanupInterval ≤ 0 then fiveMinutes else env.cleanupInterval) := by
  have hinit : m.init env.openResult = (m, none) := by
    rw [init_done_stable m env.openResult hdone, herr]
  simp [InputManager.Init, hinit, hstore, hgo]

/-- Witness: a non-positive reported interval (0) becomes 5 minutes and a
positive one (42 ns) is kept, on the concrete demo manager. -/
theorem cleaner_interval_witness :
    (demoManagerInit.Init
        { openResult := Except.ok demoStore, cleanupInterval := 0, goErr := none }
        Mode.run).2.2 =
      some (if (0 : Duration) ≤ 0 then fiveMinutes else 0) ∧
    (demoManagerInit.Init
        { openResult := Except.ok demoStore, cleanupInterval := 42, goErr := none }
        Mode.run).2.2 =
      some (if (42 : Duration) ≤ 0 then fiveMinutes else 42) :=
  ⟨cleaner_interval demoManagerInit
      { openResult := Except.ok demoStore, cleanupInterval := 0, goErr := none }
      demoStore rfl rfl rfl rfl,
   cleaner_interval demoManagerInit
      { openResult := Except.ok demoStore, cleanupInterval := 42, goErr := none }
      demoStore rfl rfl rfl rfl⟩

/-- C9: for every mode other than run mode, `Init` returns nil and is a
no-op: the manager comes back bit-for-bit unchanged (so nothing was
initialised, no store opened or retained) and no Cleaner is launched. -/
theorem init_non_run_noop (m : InputManager) (env : InitEnv) (mode : Mode)
    (h : mode ≠ Mode.run) : m.Init env mode = (m, none, none) := by
  simp [InputManager.Init, h]

/-- Witness: `Init` in test mode on the fresh demo manager changes nothing. -/
theorem init_non_run_noop_witness :
    demoManager.Init
        { openResult := Except.ok demoStore, cleanupInterval := 0, goErr := none }
        Mode.test = (demoManager, none, none) :=
  init_non_run_noop demoManager
    { openResult := Except.ok demoStore, cleanupInterval := 0, goErr := none }
    Mode.test (by decide)

end CursorSpec
